import Mathlib

/-!
Verification development for the `dync` upload server (Python sources
`dync/messages.py`, `dync/storage.py`, `dync/server.py`).

The Python code is shallowly embedded: byte strings are `List Nat`
(each entry one byte), Python `str` values on the wire are `List Nat`
of Unicode code points, machine integers are `Nat`/`Int` with explicit
widths where the code calls `int.to_bytes` / `int.from_bytes`, and
fallible code returns `Except`/`Option` while carrying the state as
mutated up to the point of the raise.
-/

namespace Dync

/-! ## Byte-level helpers: `int.to_bytes(width, 'big')` and
`int.from_bytes(bytes, 'big')`. -/

/-- `n.to_bytes(width, 'big')` for a non-negative `n`: most significant
byte first.  (Python raises `OverflowError` when `n ≥ 256 ^ width`; the
theorems carry that bound as a hypothesis.) -/
def toBytesBE : Nat → Nat → List Nat
  | 0, _ => []
  | w + 1, v => toBytesBE w (v / 256) ++ [v % 256]

/-- `int.from_bytes(bytes, 'big')`: fold most significant byte first. -/
def fromBytesBE (bs : List Nat) : Nat :=
  bs.foldl (fun acc b => acc * 256 + b) 0

theorem fromBytesBE_append (xs ys : List Nat) :
    fromBytesBE (xs ++ ys) = ys.foldl (fun acc b => acc * 256 + b) (fromBytesBE xs) := by
  simp [fromBytesBE, List.foldl_append]

theorem fromBytesBE_toBytesBE (w v : Nat) (h : v < 256 ^ w) :
    fromBytesBE (toBytesBE w v) = v := by
  induction w generalizing v with
  | zero => simp [toBytesBE, fromBytesBE]; omega
  | succ w ih =>
    have hv : v / 256 < 256 ^ w := by
      have : 256 ^ (w + 1) = 256 ^ w * 256 := by ring
      omega
    simp only [toBytesBE, fromBytesBE_append, List.foldl_cons, List.foldl_nil]
    rw [show (fromBytesBE (toBytesBE w (v / 256)) = v / 256) from ih _ hv]
    omega

theorem toBytesBE_length (w v : Nat) : (toBytesBE w v).length = w := by
  induction w generalizing v with
  | zero => rfl
  | succ w ih => simp [toBytesBE, ih]

/-- The four-byte big-endian layout, spelled out: most significant byte
first. -/
theorem toBytesBE_four (v : Nat) :
    toBytesBE 4 v = [v / 16777216 % 256, v / 65536 % 256, v / 256 % 256, v % 256] := by
  simp only [toBytesBE, List.nil_append, List.cons_append, List.append_nil]
  norm_num [Nat.div_div_eq_div_mul]

/-! ## UTF-8: `str.encode('utf8')` and `bytes.decode('utf8')`.

A Python `str` is a sequence of Unicode scalar values (surrogates are
rejected by `.encode`/`.decode`). -/

/-- A code point Python will encode: below `0x110000` and not a
surrogate. -/
def ValidCodepoint (c : Nat) : Prop :=
  c < 0x110000 ∧ (c < 0xD800 ∨ 0xDFFF < c)

instance (c : Nat) : Decidable (ValidCodepoint c) := by
  unfold ValidCodepoint; infer_instance

/-- UTF-8 encoding of a single code point (standard 1-4 byte forms). -/
def utf8EncodeChar (c : Nat) : List Nat :=
  if c < 0x80 then [c]
  else if c < 0x800 then [0xC0 + c / 64, 0x80 + c % 64]
  else if c < 0x10000 then [0xE0 + c / 4096, 0x80 + c / 64 % 64, 0x80 + c % 64]
  else [0xF0 + c / 262144, 0x80 + c / 4096 % 64, 0x80 + c / 64 % 64, 0x80 + c % 64]

/-- `s.encode('utf8')`. -/
def utf8Encode (s : List Nat) : List Nat :=
  (s.map utf8EncodeChar).flatten

/-- Decode one UTF-8 scalar from the head of a byte string: returns the
code point and the number of bytes consumed.  Strict, as CPython's
decoder: rejects overlong forms, surrogates and code points above
`0x10FFFF`. -/
def utf8DecodeChar1 : List Nat → Option (Nat × Nat)
  | [] => none
  | b :: rest =>
    if b < 0x80 then some (b, 1)
    else if b < 0xC2 then none
    else if b < 0xE0 then
      let c1 := rest.getD 0 0
      if 1 ≤ rest.length ∧ 0x80 ≤ c1 ∧ c1 < 0xC0 then
        some ((b - 0xC0) * 64 + (c1 - 0x80), 2)
      else none
    else if b < 0xF0 then
      let c1 := rest.getD 0 0
      let c2 := rest.getD 1 0
      let lo1 := if b = 0xE0 then 0xA0 else 0x80
      let hi1 := if b = 0xED then 0x9F else 0xBF
      if 2 ≤ rest.length ∧ lo1 ≤ c1 ∧ c1 ≤ hi1 ∧ 0x80 ≤ c2 ∧ c2 < 0xC0 then
        some ((b - 0xE0) * 4096 + (c1 - 0x80) * 64 + (c2 - 0x80), 3)
      else none
    else if b < 0xF5 then
      let c1 := rest.getD 0 0
      let c2 := rest.getD 1 0
      let c3 := rest.getD 2 0
      let lo1 := if b = 0xF0 then 0x90 else 0x80
      let hi1 := if b = 0xF4 then 0x8F else 0xBF
      if 3 ≤ rest.length ∧ lo1 ≤ c1 ∧ c1 ≤ hi1 ∧ 0x80 ≤ c2 ∧ c2 < 0xC0 ∧
          0x80 ≤ c3 ∧ c3 < 0xC0 then
        some ((b - 0xF0) * 262144 + (c1 - 0x80) * 4096 + (c2 - 0x80) * 64 + (c3 - 0x80), 4)
      else none
    else none

/-- Strict UTF-8 decoding of a whole byte string; `none` where Python
raises `UnicodeDecodeError`. -/
def utf8DecodeGo : List Nat → Option (List Nat)
  | [] => some []
  | b :: rest =>
    match utf8DecodeChar1 (b :: rest) with
    | none => none
    | some ck => (utf8DecodeGo (rest.drop (ck.2 - 1))).map (ck.1 :: ·)
termination_by l => l.length
decreasing_by
  simp only [List.length_cons, List.length_drop]
  omega

/-- `bytes.decode('utf8')`, `none` on `UnicodeDecodeError`. -/
def utf8Decode (bs : List Nat) : Option (List Nat) :=
  utf8DecodeGo bs

/-- Whether a byte string decodes as UTF-8. -/
def utf8Valid (bs : List Nat) : Bool :=
  (utf8Decode bs).isSome

theorem utf8DecodeChar1_encodeChar (c : Nat) (tl : List Nat) (h : ValidCodepoint c) :
    utf8DecodeChar1 (utf8EncodeChar c ++ tl) = some (c, (utf8EncodeChar c).length) := by
  obtain ⟨hmax, hsur⟩ := h
  by_cases h1 : c < 0x80
  · simp only [utf8EncodeChar, if_pos h1, List.cons_append, List.nil_append,
      List.length_cons, List.length_nil]
    rw [utf8DecodeChar1]
    simp only [if_pos h1]
  · by_cases h2 : c < 0x800
    · simp only [utf8EncodeChar, if_neg h1, if_pos h2, List.cons_append, List.nil_append,
        List.length_cons, List.length_nil]
      rw [utf8DecodeChar1]
      have e1 : ¬ (0xC0 + c / 64 < 0x80) := by omega
      have e2 : ¬ (0xC0 + c / 64 < 0xC2) := by omega
      have e3 : 0xC0 + c / 64 < 0xE0 := by omega
      simp only [if_neg e1, if_neg e2, if_pos e3, List.getD_cons_zero, List.length_cons]
      have e4 : 1 ≤ tl.length + 1 ∧ 0x80 ≤ 0x80 + c % 64 ∧ 0x80 + c % 64 < 0xC0 := by omega
      simp only [if_pos e4]
      have : (0xC0 + c / 64 - 0xC0) * 64 + (0x80 + c % 64 - 0x80) = c := by omega
      rw [this]
    · by_cases h3 : c < 0x10000
      · simp only [utf8EncodeChar, if_neg h1, if_neg h2, if_pos h3, List.cons_append,
          List.nil_append, List.length_cons, List.length_nil]
        rw [utf8DecodeChar1]
        have e1 : ¬ (0xE0 + c / 4096 < 0x80) := by omega
        have e2 : ¬ (0xE0 + c / 4096 < 0xC2) := by omega
        have e3 : ¬ (0xE0 + c / 4096 < 0xE0) := by omega
        have e4 : 0xE0 + c / 4096 < 0xF0 := by omega
        simp only [if_neg e1, if_neg e2, if_neg e3, if_pos e4, List.getD_cons_zero,
          List.getD_cons_succ, List.length_cons]
        have hE0 : (if 0xE0 + c / 4096 = 0xE0 then (0xA0 : Nat) else 0x80) ≤
            0x80 + c / 64 % 64 := by
          by_cases hE : 0xE0 + c / 4096 = 0xE0
          · simp only [if_pos hE]; omega
          · simp only [if_neg hE]; omega
        have hED : 0x80 + c / 64 % 64 ≤
            (if 0xE0 + c / 4096 = 0xED then (0x9F : Nat) else 0xBF) := by
          by_cases hD : 0xE0 + c / 4096 = 0xED
          · simp only [if_pos hD]; omega
          · simp only [if_neg hD]; omega
        have hcond : 2 ≤ tl.length + 1 + 1 ∧
            (if 0xE0 + c / 4096 = 0xE0 then (0xA0 : Nat) else 0x80) ≤ 0x80 + c / 64 % 64 ∧
            0x80 + c / 64 % 64 ≤ (if 0xE0 + c / 4096 = 0xED then (0x9F : Nat) else 0xBF) ∧
            0x80 ≤ 0x80 + c % 64 ∧ 0x80 + c % 64 < 0xC0 :=
          ⟨by omega, hE0, hED, by omega, by omega⟩
        simp only [if_pos hcond]
        have : (0xE0 + c / 4096 - 0xE0) * 4096 + (0x80 + c / 64 % 64 - 0x80) * 64 +
            (0x80 + c % 64 - 0x80) = c := by omega
        rw [this]
      · simp only [utf8EncodeChar, if_neg h1, if_neg h2, if_neg h3, List.cons_append,
          List.nil_append, List.length_cons, List.length_nil]
        rw [utf8DecodeChar1]
        have e1 : ¬ (0xF0 + c / 262144 < 0x80) := by omega
        have e2 : ¬ (0xF0 + c / 262144 < 0xC2) := by omega
        have e3 : ¬ (0xF0 + c / 262144 < 0xE0) := by omega
        have e4 : ¬ (0xF0 + c / 262144 < 0xF0) := by omega
        have e5 : 0xF0 + c / 262144 < 0xF5 := by omega
        simp only [if_neg e1, if_neg e2, if_neg e3, if_neg e4, if_pos e5,
          List.getD_cons_zero, List.getD_cons_succ, List.length_cons]
        have hF0 : (if 0xF0 + c / 262144 = 0xF0 then (0x90 : Nat) else 0x80) ≤
            0x80 + c / 4096 % 64 := by
          by_cases hF : 0xF0 + c / 262144 = 0xF0
          · simp only [if_pos hF]; omega
          · simp only [if_neg hF]; omega
        have hF4 : 0x80 + c / 4096 % 64 ≤
            (if 0xF0 + c / 262144 = 0xF4 then (0x8F : Nat) else 0xBF) := by
          by_cases hF : 0xF0 + c / 262144 = 0xF4
          · simp only [if_pos hF]; omega
          · simp only [if_neg hF]; omega
        have hcond : 3 ≤ tl.length + 1 + 1 + 1 ∧
            (if 0xF0 + c / 262144 = 0xF0 then (0x90 : Nat) else 0x80) ≤ 0x80 + c / 4096 % 64 ∧
            0x80 + c / 4096 % 64 ≤ (if 0xF0 + c / 262144 = 0xF4 then (0x8F : Nat) else 0xBF) ∧
            0x80 ≤ 0x80 + c / 64 % 64 ∧ 0x80 + c / 64 % 64 < 0xC0 ∧
            0x80 ≤ 0x80 + c % 64 ∧ 0x80 + c % 64 < 0xC0 :=
          ⟨by omega, hF0, hF4, by omega, by omega, by omega, by omega⟩
        simp only [if_pos hcond]
        have : (0xF0 + c / 262144 - 0xF0) * 262144 + (0x80 + c / 4096 % 64 - 0x80) * 4096 +
            (0x80 + c / 64 % 64 - 0x80) * 64 + (0x80 + c % 64 - 0x80) = c := by
          omega
        rw [this]

theorem utf8EncodeChar_ne_nil (c : Nat) : utf8EncodeChar c ≠ [] := by
  unfold utf8EncodeChar
  split_ifs <;> simp

theorem utf8DecodeGo_encodeChar (c : Nat) (tl : List Nat) (h : ValidCodepoint c) :
    utf8DecodeGo (utf8EncodeChar c ++ tl) = (utf8DecodeGo tl).map (c :: ·) := by
  obtain ⟨b, t, hbt⟩ : ∃ b t, utf8EncodeChar c = b :: t := by
    cases hbt : utf8EncodeChar c with
    | nil => exact absurd hbt (utf8EncodeChar_ne_nil c)
    | cons b t => exact ⟨b, t, rfl⟩
  have hchar := utf8DecodeChar1_encodeChar c tl h
  rw [hbt] at hchar ⊢
  simp only [List.cons_append, List.length_cons] at hchar ⊢
  rw [utf8DecodeGo, hchar]
  simp only [Nat.add_sub_cancel, List.drop_left]

/-- Decoding inverts encoding on valid strings. -/
theorem utf8Decode_encode (s : List Nat) (h : ∀ c ∈ s, ValidCodepoint c) :
    utf8Decode (utf8Encode s) = some s := by
  induction s with
  | nil =>
    simp only [utf8Encode, List.map_nil, List.flatten_nil, utf8Decode]
    rw [utf8DecodeGo]
  | cons c rest ih =>
    have hc := h c (List.mem_cons_self c rest)
    have hrest := ih (fun x hx => h x (List.mem_cons_of_mem c hx))
    simp only [utf8Encode, List.map_cons, List.flatten_cons] at *
    unfold utf8Decode at *
    rw [utf8DecodeGo_encodeChar c _ hc, hrest]
    rfl

/-! ## Wire codec (`dync/messages.py`).

A transport frame carries payload bytes and the verified `User-Id`
metadata the authenticator stamps on it (`frame.get(b'User-Id')`,
`none` when the lookup fails).  Python byte strings are `List Nat`.
ASCII literals are written via `ascii`. -/

/-- Byte string of an ASCII literal such as `b"post-file"`. -/
def ascii (s : String) : List Nat :=
  s.data.map Char.toNat

/-- One received frame: payload plus `User-Id` metadata. -/
structure Frame where
  data : List Nat
  userId : Option String
  deriving DecidableEq, Repr

def emptyFrame : Frame := ⟨[], none⟩

/-- Client→server messages produced by `recv_msg_server` (the
namedtuples `PostFileMsg`, `PostChunkMsg`, `ErrorMsg`,
`QueryStatusMsg`).  The metadata frame is carried raw; its JSON
parsing is abstracted by the `metaOk` parameter of
`recv_msg_server`. -/
inductive SrvMsg where
  | postFile (connection : List Nat) (origin : Option String) (flags : Nat)
      (name : List Nat) (meta : List Nat)
  | postChunk (connection : List Nat) (origin : Option String) (is_last : Bool)
      (seek : Nat) (data : List Nat) (checksum : Option (List Nat))
  | errorMsg (connection : List Nat) (origin : Option String) (code : Nat) (msg : List Nat)
  | queryStatus (connection : List Nat) (origin : Option String)
  deriving DecidableEq, Repr

/-- Server→client messages produced by `recv_msg_client`. -/
inductive CliMsg where
  | errorMsg (code : Nat) (msg : List Nat)
  | transferCredit (amount : Nat)
  | uploadApproved (credit chunksize max_credit : Nat)
  | uploadFinished (upload_id : List Nat)
  | statusReport (seek credit : Nat)
  deriving DecidableEq, Repr

/-- How decoding fails.  `invalidMessage` is `InvalidMessageError`
(carrying the connection id when the code passes one);
`unicodeError` is an uncaught `UnicodeDecodeError` (raised by
`.decode('utf8')` outside any try/except, e.g. for the post-file name
frame). -/
inductive RecvError where
  | invalidMessage (connection_id : Option (List Nat))
  | unicodeError
  deriving DecidableEq, Repr

def RecvError.isInvalidMessage : RecvError → Bool
  | .invalidMessage _ => true
  | .unicodeError => false

/-- `recv_msg_server(socket)` on an already-received frame list.
`metaOk meta` abstracts `json.loads(meta.decode('utf8'))` succeeding
(both `UnicodeDecodeError` and `json.JSONDecodeError` are caught there
and turned into `InvalidMessageError`).  Note the code performs no
length validation on integer frames (`int.from_bytes` accepts any
length) and no check that the parsed JSON is an object. -/
def recv_msg_server (metaOk : List Nat → Bool) (frames : List Frame) :
    Except RecvError SrvMsg :=
  if frames.length < 2 then .error (.invalidMessage none) else
  let connection := (frames.getD 0 emptyFrame).data
  let origin := (frames.getD 1 emptyFrame).userId
  if origin.isSome ∧ ¬ (frames.drop 2).all (fun f => f.userId = origin) then
    .error (.invalidMessage none)
  else
  let command := (frames.getD 1 emptyFrame).data
  if command = ascii "post-file" then
    if frames.length < 5 then .error (.invalidMessage none) else
    let flags := fromBytesBE (frames.getD 2 emptyFrame).data
    match utf8Decode (frames.getD 3 emptyFrame).data with
    | none => .error .unicodeError
    | some _name =>
      if metaOk (frames.getD 4 emptyFrame).data then
        .ok (.postFile connection origin flags (frames.getD 3 emptyFrame).data
          (frames.getD 4 emptyFrame).data)
      else .error (.invalidMessage (some connection))
  else if command = ascii "post-chunk" then
    if frames.length < 5 then .error (.invalidMessage (some connection)) else
    let is_last := fromBytesBE (frames.getD 2 emptyFrame).data = 1
    let seek := fromBytesBE (frames.getD 3 emptyFrame).data
    let data := (frames.getD 4 emptyFrame).data
    if is_last then
      if frames.length < 6 then .error (.invalidMessage none) else
      .ok (.postChunk connection origin true seek data (some (frames.getD 5 emptyFrame).data))
    else
      .ok (.postChunk connection origin false seek data none)
  else if command = ascii "error" then
    if frames.length < 4 then .error (.invalidMessage (some connection)) else
    let code := fromBytesBE (frames.getD 2 emptyFrame).data
    match utf8Decode (frames.getD 3 emptyFrame).data with
    | none => .error .unicodeError
    | some msg => .ok (.errorMsg connection origin code msg)
  else if command = ascii "query-status" then
    .ok (.queryStatus connection origin)
  else .error (.invalidMessage none)

/-- `recv_msg_client(socket)` on an already-received frame list (a
DEALER socket: no connection-id frame, no metadata checks). -/
def recv_msg_client (frames : List (List Nat)) : Except RecvError CliMsg :=
  if frames.length = 0 then .error (.invalidMessage none) else
  let command := frames.getD 0 []
  if command = ascii "error" then
    if frames.length < 3 then .error (.invalidMessage none) else
    let code := fromBytesBE (frames.getD 1 [])
    match utf8Decode (frames.getD 2 []) with
    | none => .error .unicodeError
    | some msg => .ok (.errorMsg code msg)
  else if command = ascii "transfer-credit" then
    if frames.length < 2 then .error (.invalidMessage none) else
    .ok (.transferCredit (fromBytesBE (frames.getD 1 [])))
  else if command = ascii "upload-approved" then
    if frames.length < 4 then .error (.invalidMessage none) else
    .ok (.uploadApproved (fromBytesBE (frames.getD 1 []))
      (fromBytesBE (frames.getD 2 [])) (fromBytesBE (frames.getD 3 [])))
  else if command = ascii "upload-finished" then
    if frames.length < 2 then .error (.invalidMessage none) else
    match utf8Decode (frames.getD 1 []) with
    | none => .error .unicodeError
    | some upload_id => .ok (.uploadFinished upload_id)
  else if command = ascii "status-report" then
    if frames.length < 3 then .error (.invalidMessage none) else
    .ok (.statusReport (fromBytesBE (frames.getD 1 []))
      (fromBytesBE (frames.getD 2 [])))
  else .error (.invalidMessage none)

/-! `ServerConnection.send_*`: the frame lists put on the wire, after
the leading connection-id frame (which the ROUTER socket consumes for
routing and the client never sees).  String payloads are UTF-8
encoded; all integers use `to_bytes(width, 'big')`. -/

def send_upload_approved (chunksize max_credit credit : Nat) : List (List Nat) :=
  [ascii "upload-approved", toBytesBE 4 credit, toBytesBE 4 chunksize, toBytesBE 4 max_credit]

def send_upload_finished (upload_id : List Nat) : List (List Nat) :=
  [ascii "upload-finished", utf8Encode upload_id]

def send_tranfer_credit (amount : Nat) : List (List Nat) :=
  [ascii "transfer-credit", toBytesBE 4 amount]

def send_status_report (seek credit : Nat) : List (List Nat) :=
  [ascii "status-report", toBytesBE 8 seek, toBytesBE 4 credit]

def send_error (code : Nat) (msg : List Nat) : List (List Nat) :=
  [ascii "error", toBytesBE 4 code, utf8Encode msg]

/-- C9: every server→client message, encoded by the corresponding
`ServerConnection.send_*` method and decoded with `recv_msg_client`,
comes back as the same command with the same field values, provided its
integers fit their fixed widths (u32, u64 for seek); and the integer
layout is big-endian (most significant byte first). -/
theorem wire_roundtrip_bigendian :
    (∀ credit chunksize max_credit : Nat, credit < 256 ^ 4 → chunksize < 256 ^ 4 →
      max_credit < 256 ^ 4 →
      recv_msg_client (send_upload_approved chunksize max_credit credit) =
        .ok (.uploadApproved credit chunksize max_credit)) ∧
    (∀ amount : Nat, amount < 256 ^ 4 →
      recv_msg_client (send_tranfer_credit amount) = .ok (.transferCredit amount)) ∧
    (∀ seek credit : Nat, seek < 256 ^ 8 → credit < 256 ^ 4 →
      recv_msg_client (send_status_report seek credit) = .ok (.statusReport seek credit)) ∧
    (∀ upload_id : List Nat, (∀ c ∈ upload_id, ValidCodepoint c) →
      recv_msg_client (send_upload_finished upload_id) = .ok (.uploadFinished upload_id)) ∧
    (∀ code msg, code < 256 ^ 4 → (∀ c ∈ msg, ValidCodepoint c) →
      recv_msg_client (send_error code msg) = .ok (.errorMsg code msg)) ∧
    (∀ v : Nat, toBytesBE 4 v = [v / 2 ^ 24 % 256, v / 2 ^ 16 % 256, v / 2 ^ 8 % 256, v % 256]) := by
  refine ⟨?_, ?_, ?_, ?_, ?_, ?_⟩
  · intro credit chunksize max_credit hc hs hm
    simp +decide [recv_msg_client, send_upload_approved,
      fromBytesBE_toBytesBE 4 credit hc, fromBytesBE_toBytesBE 4 chunksize hs,
      fromBytesBE_toBytesBE 4 max_credit hm]
  · intro amount ha
    simp +decide [recv_msg_client, send_tranfer_credit, fromBytesBE_toBytesBE 4 amount ha]
  · intro seek credit hs hc
    simp +decide [recv_msg_client, send_status_report,
      fromBytesBE_toBytesBE 8 seek hs, fromBytesBE_toBytesBE 4 credit hc]
  · intro upload_id hv
    simp +decide [recv_msg_client, send_upload_finished, utf8Decode_encode upload_id hv]
  · intro code msg hc hv
    simp +decide [recv_msg_client, send_error,
      fromBytesBE_toBytesBE 4 code hc, utf8Decode_encode msg hv]
  · intro v
    rw [toBytesBE_four]
    norm_num

/-- Witness for C9 at concrete values. -/
theorem wire_roundtrip_bigendian_witness :
    recv_msg_client (send_status_report 5 7) = .ok (.statusReport 5 7) :=
  wire_roundtrip_bigendian.2.2.1 5 7 (by norm_num) (by norm_num)

/-! ## C8: when does `recv_msg_server` raise `InvalidMessageError`? -/

/-- Did decoding fail with `InvalidMessageError` (as opposed to
succeeding, or escaping with an uncaught `UnicodeDecodeError`)? -/
def recvRaisesInvalid (r : Except RecvError SrvMsg) : Bool :=
  match r with
  | .error (.invalidMessage _) => true
  | _ => false

/-- The conditions under which decoding fails with
`InvalidMessageError`, written from the (amended) specification: frame
count insufficient for the command, verified origin differing between
frames, unknown command, or a post-file whose name frame is valid
UTF-8 but whose metadata frame fails UTF-8 JSON parsing (`metaOk`).
No integer-frame length condition appears: `int.from_bytes` accepts
any length. -/
def invalidMessageSpec (metaOk : List Nat → Bool) (frames : List Frame) : Bool :=
  if frames.length < 2 then true
  else if ((frames.getD 1 emptyFrame).userId).isSome ∧
      ¬ (frames.drop 2).all (fun f => f.userId = (frames.getD 1 emptyFrame).userId) then true
  else if (frames.getD 1 emptyFrame).data = ascii "post-file" then
    if frames.length < 5 then true
    else utf8Valid (frames.getD 3 emptyFrame).data && ! metaOk (frames.getD 4 emptyFrame).data
  else if (frames.getD 1 emptyFrame).data = ascii "post-chunk" then
    if frames.length < 5 then true
    else if fromBytesBE (frames.getD 2 emptyFrame).data = 1 then
      if frames.length < 6 then true else false
    else false
  else if (frames.getD 1 emptyFrame).data = ascii "error" then
    if frames.length < 4 then true else false
  else if (frames.getD 1 emptyFrame).data = ascii "query-status" then false
  else true

/-- C8 (amended): `recv_msg_server` raises `InvalidMessageError`
exactly under `invalidMessageSpec`, for every frame list and every
JSON-parsing oracle. -/
theorem recv_msg_server_invalid_iff (metaOk : List Nat → Bool) (frames : List Frame) :
    recvRaisesInvalid (recv_msg_server metaOk frames) = invalidMessageSpec metaOk frames := by
  simp only [recv_msg_server, invalidMessageSpec]
  by_cases h1 : frames.length < 2
  · rw [if_pos h1, if_pos h1]; rfl
  rw [if_neg h1, if_neg h1]
  by_cases h2 : ((frames.getD 1 emptyFrame).userId).isSome ∧
      ¬ (frames.drop 2).all (fun f => f.userId = (frames.getD 1 emptyFrame).userId)
  · rw [if_pos h2, if_pos h2]; rfl
  rw [if_neg h2, if_neg h2]
  by_cases h3 : (frames.getD 1 emptyFrame).data = ascii "post-file"
  · rw [if_pos h3, if_pos h3]
    by_cases h4 : frames.length < 5
    · rw [if_pos h4, if_pos h4]; rfl
    rw [if_neg h4, if_neg h4]
    cases hname : utf8Decode (frames.getD 3 emptyFrame).data with
    | none =>
      simp_all [recvRaisesInvalid, utf8Valid]
    | some nm =>
      by_cases hm : metaOk (frames.getD 4 emptyFrame).data = true
      · rw [if_pos hm]
        simp_all [recvRaisesInvalid, utf8Valid]
      · rw [if_neg hm]
        simp only [Bool.not_eq_true] at hm
        simp_all [recvRaisesInvalid, utf8Valid]
  rw [if_neg h3, if_neg h3]
  by_cases h5 : (frames.getD 1 emptyFrame).data = ascii "post-chunk"
  · rw [if_pos h5, if_pos h5]
    by_cases h6 : frames.length < 5
    · rw [if_pos h6, if_pos h6]; rfl
    rw [if_neg h6, if_neg h6]
    by_cases h7 : fromBytesBE (frames.getD 2 emptyFrame).data = 1
    · rw [if_pos h7, if_pos h7]
      by_cases h8 : frames.length < 6
      · rw [if_pos h8, if_pos h8]; rfl
      · rw [if_neg h8, if_neg h8]; rfl
    · rw [if_neg h7, if_neg h7]; rfl
  rw [if_neg h5, if_neg h5]
  by_cases h9 : (frames.getD 1 emptyFrame).data = ascii "error"
  · rw [if_pos h9, if_pos h9]
    by_cases h10 : frames.length < 4
    · rw [if_pos h10, if_pos h10]; rfl
    rw [if_neg h10, if_neg h10]
    cases hmsg : utf8Decode (frames.getD 3 emptyFrame).data with
    | none => rfl
    | some m => rfl
  rw [if_neg h9, if_neg h9]
  by_cases h11 : (frames.getD 1 emptyFrame).data = ascii "query-status"
  · rw [if_pos h11, if_pos h11]; rfl
  · rw [if_neg h11, if_neg h11]; rfl

/-- C8 (counterexample to the claim as stated): a post-chunk whose
`is_last` integer frame is a single byte — the wrong length for a u32
— decodes successfully; the claimed "integer frame has the wrong
length" failure condition does not exist in the code. -/
def cxFrames : List Frame :=
  [⟨[99], some "alice"⟩,
   ⟨ascii "post-chunk", some "alice"⟩,
   ⟨[0], some "alice"⟩,
   ⟨[0, 0, 0, 0, 0, 0, 0, 0], some "alice"⟩,
   ⟨[104, 105], some "alice"⟩]

theorem recv_wrong_length_integer_accepted :
    recv_msg_server (fun _ => true) cxFrames =
      .ok (.postChunk [99] (some "alice") false 0 [104, 105] none) ∧
    (cxFrames.getD 2 emptyFrame).data.length ≠ 4 := by
  constructor
  · rfl
  · decide

/-! ## Storage / dropbox (`dync/storage.py`).

Python `str` file names and paths are `List Char`.  The SHA-256 hasher
state is the list of bytes fed to it (`UploadFile.bytes`); the digest
function is a parameter `digest` of `finalize`, since no claim depends
on SHA-256 internals, only on checksum (in)equality.  The filesystem
is modelled as: the set of existing destination paths (`disk`), and
which staging directories currently exist (`tmpdirs`).  Dropbox-rule
resolution (`_find_openbis_dest`, driven by the YAML config) is a
parameter `resolver`; the passthrough path is modelled concretely. -/

/-- Characters of `string.ascii_letters + string.digits + '_.'`. -/
def isAllowedChar (c : Char) : Bool :=
  c.isAlpha || c.isDigit || c = '_' || c = '.'

/-- Characters matching the regex `\w` (`[A-Za-z0-9_]`). -/
def isWordChar (c : Char) : Bool :=
  c.isAlpha || c.isDigit || c = '_'

/-- `os.path.basename`: the part after the last `'/'`. -/
def basename (p : List Char) : List Char :=
  (p.reverse.takeWhile (fun c => c ≠ '/')).reverse

/-- `os.path.splitext` on a string without path separators (the code
always applies it to a basename): split at the last dot, unless every
character before that dot is itself a dot (so `.bashrc` and `..b` have
no extension). -/
def splitextNoSep (p : List Char) : List Char × List Char :=
  let pre := p.reverse.takeWhile (fun c => c ≠ '.')
  if pre.length = p.length then (p, [])
  else
    let dotIdx := p.length - pre.length - 1
    if (p.take dotIdx).all (fun c => c = '.') then (p, [])
    else (p.take dotIdx, p.drop dotIdx)

/-- `clean_filename(path)`: keep only allowed characters in the stem,
strip leading dots, fail (`ValueError`) on an empty result or on a
suffix containing disallowed characters. -/
def clean_filename (path : List Char) : Except String (List Char) :=
  let se := splitextNoSep (basename path)
  let cleaned_stem := (se.1.filter isAllowedChar).dropWhile (fun c => c = '.')
  if cleaned_stem.isEmpty then .error "Invalid file name"
  else if ¬ se.2.all isAllowedChar then .error "Bad file suffix"
  else .ok (cleaned_stem ++ se.2)

/-- The exceptions storage raises: `InvalidUploadRequest` and
`RuntimeError` (the interpolated file names of the Python format
strings are elided). -/
inductive StorageErr where
  | invalidUploadRequest (msg : String)
  | runtimeError (msg : String)
  deriving DecidableEq, Repr

def StorageErr.text : StorageErr → String
  | .invalidUploadRequest m => m
  | .runtimeError m => m

/-- The keys of the client-supplied JSON metadata that storage
consults. -/
structure Meta where
  passthrough : Option (List Char)
  untar : Option (List Char)
  deriving DecidableEq, Repr

/-- `UploadFile`: one staging file.  `bytes` is the written content,
which is also exactly the hasher input; `cleanup_called` is the
`_cleanup_called` guard. -/
structure UploadFile where
  file_id : Nat
  destination : List Char
  filename : List Char
  clean_name : List Char
  origin : String
  bytes : List Nat
  nbytes_written : Nat
  cleanup_called : Bool
  untar : Bool
  deriving DecidableEq, Repr

/-- The `Storage` registry plus the modelled filesystem.  `arena`
holds every `UploadFile` object ever created (a handle is an index
into it; Python objects outlive their registry entry), `files` is the
`_files` dict (registered handles), `destinations` the reserved set,
`tmpdirs` the handles whose staging directory currently exists, and
`disk` the existing destination paths (`os.path.exists`). -/
structure Storage where
  arena : List UploadFile
  files : List Nat
  destinations : List (List Char)
  tmpdirs : List Nat
  disk : List (List Char)
  deriving DecidableEq, Repr

/-- `Storage.num_active`. -/
def num_active (st : Storage) : Nat :=
  st.files.length

/-- A fresh storage with the given pre-existing disk paths. -/
def storageInit (disk : List (List Char)) : Storage :=
  ⟨[], [], [], [], disk⟩

/-- `os.path.join` for a relative second component. -/
def pathJoin (dir name : List Char) : List Char :=
  dir ++ '/' :: name

/-- `Storage._dest_from_passthrough`: reject any character matching
`\W`, else target `<manual>/<passthrough>`. -/
def dest_from_passthrough (manual p : List Char) : Except StorageErr (List Char) :=
  if p.any (fun c => ¬ isWordChar c) then
    .error (.invalidUploadRequest "Only alphanumeric symbols and underscore are allowed as passthrough argument.")
  else .ok (pathJoin manual p)

/-- `Storage._destination_from_meta`.  `resolver origin filename`
abstracts `_find_openbis_dest(origin, filename, False)` over the
configured dropbox rules. -/
def destination_from_meta (manual : List Char)
    (resolver : String → List Char → Option (List Char))
    (filename clean_name : List Char) (meta : Meta) (origin : String) :
    Except StorageErr (List Char) :=
  if filename ≠ basename filename ∨ filename.head? = some '.' then
    .error (.invalidUploadRequest "Invalid filename")
  else
    match meta.passthrough with
    | some p =>
      match dest_from_passthrough manual p with
      | .error e => .error e
      | .ok dest_dir => .ok (pathJoin dest_dir clean_name)
    | none =>
      match resolver origin filename with
      | none => .error (.invalidUploadRequest "File does not match any rule for incoming files.")
      | some dest_dir => .ok (pathJoin dest_dir clean_name)

/-- `Storage.add_file(filename, meta, origin)`.  All raises happen
before any mutation (the temporary directory is only created, and the
file only registered, after every check passes), so error results
carry the state unchanged. -/
def add_file (manual : List Char) (resolver : String → List Char → Option (List Char))
    (st : Storage) (filename : List Char) (meta : Meta) (origin : String) :
    Storage × Except StorageErr Nat :=
  match clean_filename filename with
  | .error _ => (st, .error (.invalidUploadRequest "Bad filename"))
  | .ok clean_name =>
    match destination_from_meta manual resolver filename clean_name meta origin with
    | .error e => (st, .error e)
    | .ok dest =>
      if dest ∈ st.destinations then
        (st, .error (.invalidUploadRequest "File is being uploaded already."))
      else if dest ∈ st.disk then
        (st, .error (.invalidUploadRequest "File exists on server."))
      else
        let idx := st.arena.length
        let file : UploadFile :=
          { file_id := idx, destination := dest, filename := filename,
            clean_name := clean_name, origin := origin, bytes := [],
            nbytes_written := 0, cleanup_called := false,
            untar := decide (meta.untar = some "True".data) }
        ({ st with
            arena := st.arena ++ [file],
            files := idx :: st.files,
            destinations := dest :: st.destinations,
            tmpdirs := idx :: st.tmpdirs }, .ok idx)

/-- `UploadFile.write(data)`: append to the staging file, feed the
hasher, advance `nbytes_written`. -/
def storage_write (st : Storage) (idx : Nat) (data : List Nat) : Storage :=
  match st.arena[idx]? with
  | none => st
  | some f =>
    let f2 : UploadFile :=
      { f with bytes := f.bytes ++ data,
               nbytes_written := f.nbytes_written + data.length }
    { st with arena := st.arena.set idx f2 }

/-- `UploadFile._cleanup`: guarded by `_cleanup_called`; closes and
unlinks the staging file, removes the staging directory, and
deregisters the file (`Storage._remove_file`: drop the destination
from the reserved set and the id from `_files`). -/
def cleanup (st : Storage) (idx : Nat) : Storage :=
  match st.arena[idx]? with
  | none => st
  | some file =>
    if file.cleanup_called then st
    else
      let file2 : UploadFile := { file with cleanup_called := true }
      { st with
          arena := st.arena.set idx file2,
          tmpdirs := st.tmpdirs.filter (· ≠ idx),
          files := st.files.filter (· ≠ idx),
          destinations := st.destinations.filter (· ≠ file.destination) }

/-- `UploadFile.abort()`. -/
def storage_abort (st : Storage) (idx : Nat) : Storage :=
  cleanup st idx

/-- `UploadFile.finalize(remote_checksum)`, for a non-tar upload (the
tar-extraction branch, `tarfile.is_tarfile(...) and self._untar`, is
not modelled; no claim exercises it, and the checksum check precedes
it).  On checksum mismatch the code raises before doing anything —
in particular before any cleanup — so the state is returned
unchanged.  On success: sidecars are written inside the staging dir,
the staging dir is renamed onto the destination (modelled as the
destination appearing on disk and the staging dir disappearing), then
`_cleanup()` runs; the best-effort finished-marker write is not
tracked. -/
def finalize (digest : List Nat → List Nat) (st : Storage) (idx : Nat)
    (remote_checksum : List Nat) : Storage × Except StorageErr Unit :=
  match st.arena[idx]? with
  | none => (st, .error (.runtimeError "no such file"))
  | some file =>
    if remote_checksum ≠ digest file.bytes then
      (st, .error (.runtimeError "Failed finalizing file: checksum mismatch"))
    else
      let st1 := { st with
        tmpdirs := st.tmpdirs.filter (· ≠ idx),
        disk := file.destination :: st.disk }
      (cleanup st1 idx, .ok ())

/-- The reply `Upload._handle_post_chunk` sends for a final chunk. -/
inductive ChunkReply where
  | upload_finished
  | error_reply (code : Nat) (msg : String)
  deriving DecidableEq, Repr

/-- The final-chunk branch of `Upload._handle_post_chunk` (the seek
check has already passed): `try: self._file.finalize(msg.checksum)`;
on exception reply `error(500, str(e))` — and nothing else: the
except branch does not call `abort()`; on success reply
`upload-finished`. -/
def upload_handle_last_chunk (digest : List Nat → List Nat) (st : Storage) (idx : Nat)
    (checksum : List Nat) : Storage × ChunkReply :=
  match finalize digest st idx checksum with
  | (st', .error e) => (st', .error_reply 500 e.text)
  | (st', .ok _) => (st', .upload_finished)

/-! ## C1: checksum mismatch on the final chunk. -/

def c1Digest : List Nat → List Nat := fun _ => List.replicate 32 1

def c1Meta : Meta := ⟨some "test".data, none⟩

/-- The storage state after `add_file("a", {"passthrough": "test"}, "alice")`
on a fresh storage. -/
def c1St : Storage :=
  (add_file "/manual".data (fun _ _ => none) (storageInit []) "a".data c1Meta "alice").1

/-- C1: on a final chunk whose remote checksum differs from the digest
of the bytes written, the server does reply `error(500, "Failed
finalizing file: checksum mismatch")` — but, contrary to the claim, no
cleanup runs: `finalize` raises before its cleanup and the except
branch of `_handle_post_chunk` does not call `abort()`, so the file
stays registered, the staging directory stays on disk, and the
destination is still in the reserved set afterwards. -/
theorem finalize_mismatch_no_cleanup :
    (add_file "/manual".data (fun _ _ => none) (storageInit []) "a".data c1Meta "alice").2 =
      .ok 0 ∧
    upload_handle_last_chunk c1Digest c1St 0 (List.replicate 32 0) =
      (c1St, .error_reply 500 "Failed finalizing file: checksum mismatch") ∧
    "/manual/test/a".data ∈ c1St.destinations ∧
    c1St.files = [0] ∧
    c1St.tmpdirs = [0] ∧
    c1St.arena[0]?.map UploadFile.cleanup_called = some false := by
  refine ⟨by rfl, by rfl, by decide, by decide, by decide, by decide⟩

/-! ## C10: the cleanup body runs at most once. -/

theorem cleanup_cleanup (st : Storage) (idx : Nat) :
    cleanup (cleanup st idx) idx = cleanup st idx := by
  cases h : st.arena[idx]? with
  | none =>
    have h1 : cleanup st idx = st := by unfold cleanup; simp only [h]
    rw [h1, h1]
  | some file =>
    by_cases hc : file.cleanup_called
    · have h1 : cleanup st idx = st := by unfold cleanup; simp only [h, if_pos hc]
      rw [h1, h1]
    · have hlt : idx < st.arena.length := by
        by_contra hge
        rw [List.getElem?_eq_none (by omega)] at h
        cases h
      have h1 : cleanup st idx =
          { st with
              arena := st.arena.set idx ({ file with cleanup_called := true }),
              tmpdirs := st.tmpdirs.filter (· ≠ idx),
              files := st.files.filter (· ≠ idx),
              destinations := st.destinations.filter (· ≠ file.destination) } := by
        unfold cleanup; simp only [h, if_neg hc]
      rw [h1]
      unfold cleanup
      simp only [List.getElem?_set_eq_of_lt _ hlt]
      simp

/-- C10: calling `abort()` after a prior `abort()`, or after a
successful `finalize()`, changes nothing: the `_cleanup_called` guard
makes the cleanup body run at most once, so on states
`abort ∘ abort = abort`. -/
theorem cleanup_idempotent :
    (∀ st idx, storage_abort (storage_abort st idx) idx = storage_abort st idx) ∧
    (∀ digest st idx ck st' u, finalize digest st idx ck = (st', Except.ok u) →
      storage_abort st' idx = st') := by
  constructor
  · intro st idx
    exact cleanup_cleanup st idx
  · intro digest st idx ck st' u hfin
    unfold finalize at hfin
    cases h : st.arena[idx]? with
    | none => simp only [h] at hfin; cases hfin
    | some file =>
      simp only [h] at hfin
      by_cases hck : ck ≠ digest file.bytes
      · rw [if_pos hck] at hfin; cases hfin
      · rw [if_neg hck] at hfin
        have hst' : st' = cleanup { st with
            tmpdirs := st.tmpdirs.filter (· ≠ idx),
            disk := file.destination :: st.disk } idx := by
          cases hfin; rfl
        rw [hst']
        exact cleanup_cleanup _ idx

def c10St : Storage :=
  (add_file "/manual".data (fun _ _ => none) (storageInit []) "b".data
    ⟨some "test".data, none⟩ "bob").1

/-- Witness for C10: a concrete double abort, and a concrete abort
after a successful finalize (digest instantiated so the empty upload's
checksum matches). -/
theorem cleanup_idempotent_witness :
    storage_abort (storage_abort c10St 0) 0 = storage_abort c10St 0 ∧
    storage_abort (finalize (fun bs => bs) c10St 0 []).1 0 =
      (finalize (fun bs => bs) c10St 0 []).1 :=
  ⟨cleanup_idempotent.1 c10St 0,
   cleanup_idempotent.2 (fun bs => bs) c10St 0 [] _ () (by rfl)⟩

/-! ## C7: `add_file` rejects bad filenames, with no side effects. -/

theorem basename_no_sep (l : List Char) : '/' ∉ basename l := by
  intro h
  unfold basename at h
  rw [List.mem_reverse] at h
  have := List.mem_takeWhile_imp h
  simp at this

theorem basename_ne_of_sep_mem (l : List Char) (h : '/' ∈ l) : basename l ≠ l := by
  intro heq
  exact basename_no_sep l (heq.symm ▸ h)

/-- C7: for every filename that is `.`, `..`, starts with a dot,
contains a path separator, has an empty stem after removing characters
outside `[A-Za-z0-9_.]`, or has a suffix with invalid characters,
`add_file` fails with `InvalidUploadRequest` and the storage state —
in particular `num_active`, the registry and the set of staging
directories — is unchanged (no temporary directory is created). -/
theorem add_file_rejects_bad_names (manual : List Char)
    (resolver : String → List Char → Option (List Char)) (st : Storage)
    (filename : List Char) (meta : Meta) (origin : String)
    (hbad : filename = ['.'] ∨ filename = ['.', '.'] ∨ filename.head? = some '.' ∨
      '/' ∈ filename ∨ (splitextNoSep (basename filename)).1.filter isAllowedChar = [] ∨
      (splitextNoSep (basename filename)).2.all isAllowedChar = false) :
    (∃ m, (add_file manual resolver st filename meta origin).2 =
      Except.error (.invalidUploadRequest m)) ∧
    (add_file manual resolver st filename meta origin).1 = st ∧
    num_active (add_file manual resolver st filename meta origin).1 = num_active st := by
  have hmain : (∃ m, (add_file manual resolver st filename meta origin).2 =
      Except.error (.invalidUploadRequest m)) ∧
      (add_file manual resolver st filename meta origin).1 = st := by
    cases hcf : clean_filename filename with
    | error e =>
      refine ⟨⟨"Bad filename", ?_⟩, ?_⟩ <;> simp [add_file, hcf]
    | ok cn =>
      have hdm : filename ≠ basename filename ∨ filename.head? = some '.' := by
        rcases hbad with h | h | h | h | h | h
        · exfalso; subst h
          rw [show clean_filename ['.'] = Except.error "Invalid file name" from rfl] at hcf
          cases hcf
        · exfalso; subst h
          rw [show clean_filename ['.', '.'] = Except.error "Invalid file name" from rfl] at hcf
          cases hcf
        · exact Or.inr h
        · exact Or.inl (fun heq => basename_ne_of_sep_mem filename h heq.symm)
        · exfalso
          simp only [clean_filename] at hcf
          rw [h] at hcf
          simp at hcf
        · exfalso
          simp only [clean_filename] at hcf
          by_cases he : (((splitextNoSep (basename filename)).1.filter
              isAllowedChar).dropWhile (fun c => c = '.')).isEmpty
          · rw [if_pos he] at hcf; cases hcf
          · rw [if_neg he, if_pos (show
                ¬ (splitextNoSep (basename filename)).2.all isAllowedChar = true by
              simp [h])] at hcf
            cases hcf
      refine ⟨⟨"Invalid filename", ?_⟩, ?_⟩ <;>
        simp [add_file, hcf, destination_from_meta, if_pos hdm]
  exact ⟨hmain.1, hmain.2, by rw [hmain.2]⟩

/-- Witness for C7 at `add_file("../x", {"passthrough": "test"}, …)`. -/
theorem add_file_rejects_bad_names_witness :
    (∃ m, (add_file "/manual".data (fun _ _ => none) (storageInit []) "../x".data
      ⟨some "test".data, none⟩ "u").2 = Except.error (.invalidUploadRequest m)) ∧
    (add_file "/manual".data (fun _ _ => none) (storageInit []) "../x".data
      ⟨some "test".data, none⟩ "u").1 = storageInit [] ∧
    num_active (add_file "/manual".data (fun _ _ => none) (storageInit []) "../x".data
      ⟨some "test".data, none⟩ "u").1 = num_active (storageInit []) :=
  add_file_rejects_bad_names "/manual".data (fun _ _ => none) (storageInit [])
    "../x".data ⟨some "test".data, none⟩ "u"
    (Or.inr (Or.inr (Or.inl (by decide))))

/-! ## Server loop and flow control (`dync/server.py`).

The per-connection state machine (`Upload`), the server's uploads map
and debt, and one loop iteration of `serve`.  Credits and debt are
`Int`: the code never clamps them below zero.  The per-session staging
file is abstracted to its `nbytes_written` (storage-level effects are
modelled in the storage section); the outcome of the `add_file` call
on `post-file`, and of `write`/`finalize` on chunks, are oracle
booleans carried in the message, so the reachable-state theorems
quantify over every possible storage behaviour.  Wall-clock time is
abstracted: a loop iteration optionally carries the set of connections
a due timeout sweep finds stale. -/

def CHUNKSIZE : Int := 120 * 1024

def MAX_DEBT : Int := 500

def MIN_DEBT : Int := 300

def MAX_CREDIT : Int := 200

def TRANSFER_THRESHOLD : Int := 100

/-- The mutable state of one `Upload` session. -/
structure Session where
  conn : String
  origin : String
  credit : Int
  nbytes_written : Nat
  deriving DecidableEq, Repr

/-- A server→client send, recorded with the values put on the wire. -/
inductive Reply where
  | upload_approved (conn : String) (credit chunksize max_credit : Int)
  | transfer_credit (conn : String) (amount : Int)
  | status_report (conn : String) (seek : Nat) (credit : Int)
  | upload_finished (conn : String)
  | error_frames (conn : String) (code : Int) (msg : String)
  deriving DecidableEq, Repr

/-- `Server.send_error(connection_id, code, msg)` (server.py lines
208-216): the code frame put on the wire is the literal
`(500).to_bytes(4, 'big')` — the `code` argument is ignored. -/
def server_send_error (conn : String) (code : Int) (msg : String) : Reply :=
  Reply.error_frames conn 500 msg

/-- `ServerConnection.send_error(code, msg)` (messages.py): the code
argument is encoded as given. -/
def conn_send_error (conn : String) (code : Int) (msg : String) : Reply :=
  Reply.error_frames conn code msg

/-- The four commands `recv_msg_server` can deliver, with the oracle
outcomes of the storage operations their handling performs:
`addOk` — whether session creation (the storage `add_file` plus
`Upload.__init__`) succeeds; `fileOk` — whether `write` (non-last) or
`finalize` (last) succeeds; `errText` — `str(e)` of a failed
finalize. -/
inductive Msg where
  | post_file (conn origin : String) (addOk : Bool)
  | post_chunk (conn origin : String) (is_last : Bool) (seek : Nat) (dataLen : Nat)
      (fileOk : Bool) (errText : String)
  | error_msg (conn origin : String)
  | query_status (conn origin : String)
  deriving DecidableEq, Repr

def Msg.conn : Msg → String
  | .post_file c _ _ => c
  | .post_chunk c _ _ _ _ _ _ => c
  | .error_msg c _ => c
  | .query_status c _ => c

def Msg.origin : Msg → String
  | .post_file _ o _ => o
  | .post_chunk _ o _ _ _ _ _ => o
  | .error_msg _ o => o
  | .query_status _ o => o

/-- `Upload.handle_msg`: returns the updated session, the `finished`
flag, the returned credit, and the replies sent.  A `post-chunk` at
the wrong seek is ignored (`(False, 0)`); a non-last chunk writes and
consumes one credit — with no check that any credit is held; a last
chunk returns all remaining credit and replies `upload-finished` or
`error(500, str(e))` depending on `finalize`; a raising `write`
escapes to the catch-all, which cancels with `error(500, "Unknown
error")` and returns the held credit.  A client `error` silently
cancels, returning the held credit; `query-status` replies
`status-report(nbytes_written, credit)`.  Any other command (only
`post-file`, never dispatched here by `serve`) is ignored with
`(True, 0)`. -/
def handle_msg (u : Session) (m : Msg) : Session × Bool × Int × List Reply :=
  match m with
  | .post_chunk _ _ is_last seek dataLen fileOk errText =>
    if seek ≠ u.nbytes_written then (u, false, 0, [])
    else if is_last then
      let returned := u.credit
      let reps := if fileOk then [Reply.upload_finished u.conn]
                  else [conn_send_error u.conn 500 errText]
      ({ u with credit := u.credit - returned }, true, returned, reps)
    else
      if fileOk then
        ({ u with nbytes_written := u.nbytes_written + dataLen,
                  credit := u.credit - 1 }, false, 1, [])
      else
        (u, true, u.credit, [conn_send_error u.conn 500 "Unknown error"])
  | .error_msg _ _ => (u, true, u.credit, [])
  | .query_status _ _ =>
    (u, false, 0, [Reply.status_report u.conn u.nbytes_written u.credit])
  | .post_file _ _ _ => (u, true, 0, [])

/-- `Upload.offer_credit(amount)`: refuse when holding at least
`TRANSFER_THRESHOLD`; else raise toward `min(MAX_CREDIT, credit +
amount)` and send the delta. -/
def offer_credit (u : Session) (amount : Int) : Session × Int × List Reply :=
  if u.credit ≥ TRANSFER_THRESHOLD then (u, 0, [])
  else
    let newCredit := min MAX_CREDIT (u.credit + amount)
    let transfer := newCredit - u.credit
    ({ u with credit := newCredit }, transfer,
     [Reply.transfer_credit u.conn transfer])

/-- The server: insertion-ordered uploads map and global debt. -/
structure Server where
  uploads : List Session
  debt : Int
  deriving DecidableEq, Repr

def init_server : Server := ⟨[], 0⟩

/-- The loop body of `Server._distribute_credit`: visit sessions in
insertion order, stop once `debt ≥ MAX_DEBT`, offering each
`MAX_DEBT - debt`. -/
def distribute_go : Int → List Session → Int × List Session × List Reply
  | debt, [] => (debt, [], [])
  | debt, u :: rest =>
    if debt ≥ MAX_DEBT then (debt, u :: rest, [])
    else
      let r1 := offer_credit u (MAX_DEBT - debt)
      let r2 := distribute_go (debt + r1.2.1) rest
      (r2.1, r1.1 :: r2.2.1, r1.2.2 ++ r2.2.2)

def distribute_credit (s : Server) : Server × List Reply :=
  let r := distribute_go s.debt s.uploads
  (⟨r.2.1, r.1⟩, r.2.2)

/-- `Server._check_timeouts` with the stale-connection set supplied by
the time oracle: each stale session is canceled with `error(408,
"Connection timed out.")` and removed; debt drops by the canceled
credit. -/
def check_timeouts (s : Server) (stale : List String) : Server × List Reply :=
  let canceled := s.uploads.filter (fun u => decide (u.conn ∈ stale))
  let kept := s.uploads.filter (fun u => decide (u.conn ∉ stale))
  (⟨kept, s.debt - (canceled.map Session.credit).sum⟩,
   canceled.map (fun u => conn_send_error u.conn 408 "Connection timed out."))

/-- `Server._add_upload` with the storage outcome as the oracle
`addOk`.  A duplicate connection id raises `ValueError`, caught by
`serve` and answered with `error(500, "Failed to create upload: …")`;
otherwise `init_credit = min(MAX_CREDIT, max(0, MAX_DEBT - debt))`,
and on success the session is appended and approved.  (As actually
written the storage call always raises — see
`add_upload_as_written` — so `addOk = true` models the evidently
intended behaviour whose flow-control invariants the spec asserts;
quantifying over the oracle covers every storage behaviour.) -/
def add_upload (s : Server) (conn origin : String) (addOk : Bool) : Server × List Reply :=
  if s.uploads.any (fun u => u.conn = conn) then
    (s, [server_send_error conn 500 "Failed to create upload: Connection id not unique"])
  else
    let init_credit := min MAX_CREDIT (max 0 (MAX_DEBT - s.debt))
    if addOk then
      (⟨s.uploads ++ [⟨conn, origin, init_credit, 0⟩], s.debt + init_credit⟩,
       [Reply.upload_approved conn init_credit CHUNKSIZE MAX_CREDIT])
    else
      (s, [server_send_error conn 500 "Failed to create upload"])

/-- `Server._add_upload` as actually written: the call
`self._storage.add_file(msg.name, msg.meta)` passes two arguments to
the three-parameter `Storage.add_file(self, filename, meta, origin)`,
so Python raises `TypeError` before `add_file`'s body runs, `serve`
catches it, and the reply is `error(500, "Failed to create upload:
…")` — for every post-file message, whatever its filename and
metadata. -/
def add_upload_as_written (s : Server) (conn origin : String) : Server × List Reply :=
  if s.uploads.any (fun u => u.conn = conn) then
    (s, [server_send_error conn 500 "Failed to create upload: Connection id not unique"])
  else
    (s, [server_send_error conn 500
      "Failed to create upload: add_file() missing 1 required positional argument: origin"])

/-- `self._uploads[msg.connection]` (first match; connection ids are
unique since `_add_upload` refuses duplicates). -/
def find_session : List Session → String → Option Session
  | [], _ => none
  | u :: rest, c => if u.conn = c then some u else find_session rest c

/-- Replace (`some`) or delete (`none`) the entry for a connection. -/
def dispatch_replace : List Session → String → Option Session → List Session
  | [], _, _ => []
  | u :: rest, c, r =>
    if u.conn = c then
      match r with
      | some u2 => u2 :: rest
      | none => rest
    else u :: dispatch_replace rest c r

/-- `Server._dispatch_connection`: unknown connection → reply
`Server.send_error(conn, 400, "Unknown connection.")` (which puts 500
on the wire) and change nothing; origin mismatch → log and ignore;
else hand to the session, subtract the returned credit from debt, and
drop the session when finished. -/
def dispatch_connection (s : Server) (m : Msg) : Server × List Reply :=
  match find_session s.uploads m.conn with
  | none => (s, [server_send_error m.conn 400 "Unknown connection."])
  | some u =>
    if u.origin ≠ m.origin then (s, [])
    else
      let r := handle_msg u m
      (⟨dispatch_replace s.uploads m.conn (if r.2.1 then none else some r.1),
        s.debt - r.2.2.1⟩, r.2.2.2)

/-- One `serve` loop iteration: an optional due timeout sweep (with
the stale set the time oracle reports) and the received message —
`none` for a message `recv_msg_server` rejected, which changes no
state. -/
structure Iter where
  stale : Option (List String)
  msg : Option Msg
  deriving DecidableEq, Repr

/-- Credit distribution runs first when `debt < MIN_DEBT`. -/
def phase_distribute (s : Server) : Server × List Reply :=
  if s.debt < MIN_DEBT then distribute_credit s else (s, [])

def phase_sweep (s : Server) (stale : Option (List String)) : Server × List Reply :=
  match stale with
  | some l => check_timeouts s l
  | none => (s, [])

def phase_handle (s : Server) (msg : Option Msg) : Server × List Reply :=
  match msg with
  | none => (s, [])
  | some (Msg.post_file conn origin addOk) => add_upload s conn origin addOk
  | some m => dispatch_connection s m

/-- One iteration of `Server.serve`: distribute credit when debt is
low, sweep timeouts when due, then create or dispatch for the received
message. -/
def serve_step (s : Server) (it : Iter) : Server × List Reply :=
  let r1 := phase_distribute s
  let r2 := phase_sweep r1.1 it.stale
  let r3 := phase_handle r2.1 it.msg
  (r3.1, r1.2 ++ r2.2 ++ r3.2)

/-- Run a sequence of loop iterations. -/
def run (s : Server) (its : List Iter) : Server :=
  its.foldl (fun s it => (serve_step s it).1) s

/-- States reachable from the initial server via any iterations
(arbitrary messages, arbitrary storage and timing behaviour). -/
inductive Reach : Server → Prop where
  | init : Reach init_server
  | step (s : Server) (it : Iter) : Reach s → Reach (serve_step s it).1

/-- A compliant iteration: if the message is a post-chunk, the session
it lands on (in the state the handle phase sees) holds positive
credit. -/
def CompliantAt (s : Server) (it : Iter) : Prop :=
  match it.msg with
  | some (Msg.post_chunk conn _ _ _ _ _ _) =>
    ∀ u, find_session (phase_sweep (phase_distribute s).1 it.stale).1.uploads conn = some u →
      0 < u.credit
  | _ => True

/-- States reachable when every client sends chunks only while holding
positive credit. -/
inductive ReachC : Server → Prop where
  | init : ReachC init_server
  | step (s : Server) (it : Iter) : ReachC s → CompliantAt s it → ReachC (serve_step s it).1

/-! ### Flow-control bookkeeping lemmas. -/

/-- Sum of the credit held by the sessions of a list. -/
def creditSum (l : List Session) : Int :=
  (l.map Session.credit).sum

theorem offer_credit_delta (u : Session) (a : Int) :
    (offer_credit u a).1.credit = u.credit + (offer_credit u a).2.1 := by
  unfold offer_credit
  split_ifs <;> simp

theorem offer_credit_le (u : Session) (a : Int) (h : u.credit ≤ MAX_CREDIT) :
    (offer_credit u a).1.credit ≤ MAX_CREDIT := by
  unfold offer_credit
  split_ifs with hc
  · exact h
  · simp [min_le_left]

theorem offer_credit_nonneg (u : Session) (a : Int) (hu : 0 ≤ u.credit) (ha : 0 ≤ a)
    (hle : u.credit ≤ MAX_CREDIT) : 0 ≤ (offer_credit u a).1.credit := by
  unfold offer_credit
  split_ifs with hc
  · exact hu
  · simp only
    rw [le_min_iff]
    unfold MAX_CREDIT
    omega

theorem offer_credit_transfer_le (u : Session) (a : Int) (ha : 0 ≤ a) :
    (offer_credit u a).2.1 ≤ a := by
  unfold offer_credit
  split_ifs with hc
  · simpa using ha
  · simp only
    have := min_le_right MAX_CREDIT (u.credit + a)
    omega

theorem distribute_go_sum (l : List Session) (debt : Int) :
    (distribute_go debt l).1 - creditSum (distribute_go debt l).2.1 = debt - creditSum l := by
  induction l generalizing debt with
  | nil => simp [distribute_go, creditSum]
  | cons u rest ih =>
    unfold distribute_go
    split_ifs with hd
    · rfl
    · simp only [creditSum, List.map_cons, List.sum_cons]
      have h1 := offer_credit_delta u (MAX_DEBT - debt)
      have h2 := ih (debt + (offer_credit u (MAX_DEBT - debt)).2.1)
      simp only [creditSum] at h2
      omega

theorem distribute_go_le (l : List Session) (debt : Int)
    (h : ∀ u ∈ l, u.credit ≤ MAX_CREDIT) :
    ∀ v ∈ (distribute_go debt l).2.1, v.credit ≤ MAX_CREDIT := by
  induction l generalizing debt with
  | nil => simp [distribute_go]
  | cons u rest ih =>
    unfold distribute_go
    split_ifs with hd
    · exact h
    · intro v hv
      simp only [List.mem_cons] at hv
      rcases hv with hv | hv
      · rw [hv]
        exact offer_credit_le u _ (h u (List.mem_cons_self u rest))
      · exact ih _ (fun w hw => h w (List.mem_cons_of_mem u hw)) v hv

theorem distribute_go_nonneg (l : List Session) (debt : Int)
    (h : ∀ u ∈ l, 0 ≤ u.credit ∧ u.credit ≤ MAX_CREDIT) :
    ∀ v ∈ (distribute_go debt l).2.1, 0 ≤ v.credit := by
  induction l generalizing debt with
  | nil => simp [distribute_go]
  | cons u rest ih =>
    unfold distribute_go
    split_ifs with hd
    · exact fun v hv => (h v hv).1
    · intro v hv
      simp only [List.mem_cons] at hv
      rcases hv with hv | hv
      · rw [hv]
        have hu := h u (List.mem_cons_self u rest)
        exact offer_credit_nonneg u _ hu.1 (by unfold MAX_DEBT at *; omega) hu.2
      · exact ih _ (fun w hw => h w (List.mem_cons_of_mem u hw)) v hv

theorem distribute_go_debt_le (l : List Session) (debt : Int) (hd : debt ≤ MAX_DEBT) :
    (distribute_go debt l).1 ≤ MAX_DEBT := by
  induction l generalizing debt with
  | nil => simpa [distribute_go] using hd
  | cons u rest ih =>
    unfold distribute_go
    split_ifs with hge
    · exact hd
    · have ht := offer_credit_transfer_le u (MAX_DEBT - debt) (by omega)
      exact ih _ (by omega)

theorem creditSum_filter_split (l : List Session) (q : Session → Bool) :
    creditSum (l.filter q) + creditSum (l.filter (fun u => ! q u)) = creditSum l := by
  induction l with
  | nil => simp [creditSum]
  | cons u rest ih =>
    cases hq : q u <;> simp [creditSum, List.filter_cons, hq] at * <;> omega

theorem creditSum_filter_nonneg (l : List Session) (q : Session → Bool)
    (h : ∀ u ∈ l, 0 ≤ u.credit) : 0 ≤ creditSum (l.filter q) := by
  induction l with
  | nil => simp [creditSum]
  | cons u rest ih =>
    have hu := h u (List.mem_cons_self u rest)
    have hr := ih (fun w hw => h w (List.mem_cons_of_mem u hw))
    cases hq : q u <;> simp [creditSum, List.filter_cons, hq] at * <;> omega

theorem find_session_mem (l : List Session) (c : String) (u : Session)
    (h : find_session l c = some u) : u ∈ l := by
  induction l with
  | nil => cases h
  | cons v rest ih =>
    unfold find_session at h
    split_ifs at h with hv
    · cases h; exact List.mem_cons_self _ _
    · exact List.mem_cons_of_mem _ (ih h)

theorem dispatch_replace_sum_some (l : List Session) (c : String) (u u2 : Session)
    (h : find_session l c = some u) :
    creditSum (dispatch_replace l c (some u2)) = creditSum l - u.credit + u2.credit := by
  induction l with
  | nil => cases h
  | cons v rest ih =>
    unfold find_session at h
    unfold dispatch_replace
    split_ifs at h ⊢ with hv
    · cases h
      simp [creditSum]
      omega
    · simp only [creditSum, List.map_cons, List.sum_cons]
      have := ih h
      simp only [creditSum] at this
      omega

theorem dispatch_replace_sum_none (l : List Session) (c : String) (u : Session)
    (h : find_session l c = some u) :
    creditSum (dispatch_replace l c none) = creditSum l - u.credit := by
  induction l with
  | nil => cases h
  | cons v rest ih =>
    unfold find_session at h
    unfold dispatch_replace
    split_ifs at h ⊢ with hv
    · cases h
      simp [creditSum]
    · simp only [creditSum, List.map_cons, List.sum_cons]
      have := ih h
      simp only [creditSum] at this
      omega

theorem dispatch_replace_mem (l : List Session) (c : String) (r : Option Session)
    (v : Session) (h : v ∈ dispatch_replace l c r) : v ∈ l ∨ r = some v := by
  induction l with
  | nil => cases h
  | cons w rest ih =>
    unfold dispatch_replace at h
    split_ifs at h with hw
    · cases r with
      | none => exact Or.inl (List.mem_cons_of_mem _ h)
      | some u2 =>
        simp only [List.mem_cons] at h
        rcases h with h | h
        · exact Or.inr (by rw [h])
        · exact Or.inl (List.mem_cons_of_mem _ h)
    · simp only [List.mem_cons] at h
      rcases h with h | h
      · exact Or.inl (h ▸ List.mem_cons_self _ _)
      · rcases ih h with h2 | h2
        · exact Or.inl (List.mem_cons_of_mem _ h2)
        · exact Or.inr h2

theorem handle_msg_credit_eq (u : Session) (m : Msg)
    (hnp : ∀ c o a, m ≠ .post_file c o a) :
    if (handle_msg u m).2.1 then (handle_msg u m).2.2.1 = u.credit
    else (handle_msg u m).1.credit = u.credit - (handle_msg u m).2.2.1 := by
  cases m with
  | post_file c o a => exact absurd rfl (hnp c o a)
  | post_chunk c o is_last seek len ok et =>
    unfold handle_msg
    by_cases hs : seek ≠ u.nbytes_written
    · simp [hs]
    · cases is_last with
      | true => simp [hs]
      | false => cases ok <;> simp [hs]
  | error_msg c o => simp [handle_msg]
  | query_status c o => simp [handle_msg]

theorem handle_msg_credit_le (u : Session) (m : Msg) (h : u.credit ≤ MAX_CREDIT) :
    (handle_msg u m).1.credit ≤ MAX_CREDIT := by
  cases m with
  | post_file c o a => exact h
  | post_chunk c o is_last seek len ok et =>
    unfold handle_msg
    by_cases hs : seek ≠ u.nbytes_written
    · simp [hs]; exact h
    · cases is_last with
      | true => simp [hs]; unfold MAX_CREDIT; omega
      | false =>
        cases ok <;> simp [hs]
        · exact h
        · unfold MAX_CREDIT at *; omega
  | error_msg c o => exact h
  | query_status c o => exact h

theorem handle_msg_returned_nonneg (u : Session) (m : Msg) (h : 0 ≤ u.credit) :
    0 ≤ (handle_msg u m).2.2.1 := by
  cases m with
  | post_file c o a => simp [handle_msg]
  | post_chunk c o is_last seek len ok et =>
    unfold handle_msg
    by_cases hs : seek ≠ u.nbytes_written
    · simp [hs]
    · cases is_last with
      | true => simp [hs]; exact h
      | false => cases ok <;> simp [hs] <;> omega
  | error_msg c o => simp [handle_msg]; exact h
  | query_status c o => simp [handle_msg]

theorem handle_msg_credit_nonneg (u : Session) (m : Msg) (h : 0 < u.credit) :
    0 ≤ (handle_msg u m).1.credit := by
  cases m with
  | post_file c o a => simp [handle_msg]; omega
  | post_chunk c o is_last seek len ok et =>
    unfold handle_msg
    by_cases hs : seek ≠ u.nbytes_written
    · simp [hs]; omega
    · cases is_last with
      | true => simp [hs]
      | false => cases ok <;> simp [hs] <;> omega
  | error_msg c o => simp [handle_msg]; omega
  | query_status c o => simp [handle_msg]; omega

/-! ### Per-phase preservation of the flow-control invariants. -/

theorem dispatch_connection_sum (s : Server) (m : Msg)
    (h : s.debt = creditSum s.uploads) (hnp : ∀ c o a, m ≠ .post_file c o a) :
    (dispatch_connection s m).1.debt = creditSum (dispatch_connection s m).1.uploads := by
  unfold dispatch_connection
  cases hf : find_session s.uploads m.conn with
  | none => exact h
  | some u =>
    dsimp only
    by_cases ho : u.origin ≠ m.origin
    · rw [if_pos ho]
      exact h
    · rw [if_neg ho]
      dsimp only
      have hce := handle_msg_credit_eq u m hnp
      cases hfin : (handle_msg u m).2.1 with
      | true =>
        rw [hfin] at hce
        rw [if_pos rfl] at hce
        simp only [if_true]
        try dsimp only
        rw [dispatch_replace_sum_none s.uploads m.conn u hf]
        omega
      | false =>
        rw [hfin] at hce
        rw [if_neg (by simp)] at hce
        simp only [Bool.false_eq_true, if_false]
        try dsimp only
        rw [dispatch_replace_sum_some s.uploads m.conn u _ hf]
        omega

theorem phase_distribute_sum (s : Server) (h : s.debt = creditSum s.uploads) :
    (phase_distribute s).1.debt = creditSum (phase_distribute s).1.uploads := by
  unfold phase_distribute
  split_ifs with hd
  · unfold distribute_credit
    have := distribute_go_sum s.uploads s.debt
    simp only
    omega
  · exact h

theorem phase_sweep_sum (s : Server) (stale : Option (List String))
    (h : s.debt = creditSum s.uploads) :
    (phase_sweep s stale).1.debt = creditSum (phase_sweep s stale).1.uploads := by
  unfold phase_sweep
  cases stale with
  | none => exact h
  | some l =>
    unfold check_timeouts
    simp only
    have key := creditSum_filter_split s.uploads (fun u => decide (u.conn ∈ l))
    have heq : (s.uploads.filter fun u => decide (u.conn ∉ l)) =
        (s.uploads.filter fun u => ! decide (u.conn ∈ l)) := by
      simp [decide_not]
    rw [heq]
    simp only [creditSum] at key h ⊢
    omega

theorem phase_handle_sum (s : Server) (om : Option Msg)
    (h : s.debt = creditSum s.uploads) :
    (phase_handle s om).1.debt = creditSum (phase_handle s om).1.uploads := by
  match om with
  | none => exact h
  | some (Msg.post_file conn origin addOk) =>
    simp only [phase_handle, add_upload]
    split_ifs with hdup hok
    · exact h
    · simp only [creditSum, List.map_append, List.sum_append, List.map_cons,
        List.sum_cons, List.map_nil, List.sum_nil]
      simp only [creditSum] at h
      omega
    · exact h
  | some (Msg.post_chunk conn origin is_last seek len ok et) =>
    exact dispatch_connection_sum s _ h (by intro c o a hne; cases hne)
  | some (Msg.error_msg conn origin) =>
    exact dispatch_connection_sum s _ h (by intro c o a hne; cases hne)
  | some (Msg.query_status conn origin) =>
    exact dispatch_connection_sum s _ h (by intro c o a hne; cases hne)

/-- C5: in every reachable at-rest server state (after each serve-loop
iteration — session creation, dispatch, credit distribution, timeout
sweeps), the global debt equals the sum of the credit of the sessions
in the uploads map. -/
theorem debt_eq_credit_sum (s : Server) (h : Reach s) :
    s.debt = creditSum s.uploads := by
  induction h with
  | init => rfl
  | step s it _ ih =>
    show (serve_step s it).1.debt = creditSum (serve_step s it).1.uploads
    unfold serve_step
    exact phase_handle_sum _ _ (phase_sweep_sum _ _ (phase_distribute_sum _ ih))

/-- Witness for C5: the state after approving one upload on a fresh
server. -/
theorem debt_eq_credit_sum_witness :
    (serve_step init_server ⟨none, some (.post_file "c1" "alice" true)⟩).1.debt =
      creditSum (serve_step init_server ⟨none, some (.post_file "c1" "alice" true)⟩).1.uploads :=
  debt_eq_credit_sum _ (Reach.step init_server _ Reach.init)

/-! ### Credit bounds (C4). -/

theorem dispatch_connection_le (s : Server) (m : Msg)
    (h : ∀ u ∈ s.uploads, u.credit ≤ MAX_CREDIT) :
    ∀ v ∈ (dispatch_connection s m).1.uploads, v.credit ≤ MAX_CREDIT := by
  unfold dispatch_connection
  cases hf : find_session s.uploads m.conn with
  | none => exact h
  | some u =>
    dsimp only
    by_cases ho : u.origin ≠ m.origin
    · rw [if_pos ho]; exact h
    · rw [if_neg ho]
      dsimp only
      intro v hv
      rcases dispatch_replace_mem _ _ _ v hv with hm | hm
      · exact h v hm
      · by_cases hfin : (handle_msg u m).2.1 = true
        · rw [if_pos hfin] at hm; cases hm
        · rw [if_neg hfin] at hm
          cases hm
          exact handle_msg_credit_le u m (h u (find_session_mem _ _ _ hf))

theorem phase_distribute_le (s : Server) (h : ∀ u ∈ s.uploads, u.credit ≤ MAX_CREDIT) :
    ∀ v ∈ (phase_distribute s).1.uploads, v.credit ≤ MAX_CREDIT := by
  unfold phase_distribute
  split_ifs with hd
  · unfold distribute_credit
    dsimp only
    exact distribute_go_le _ _ h
  · exact h

theorem phase_sweep_le (s : Server) (stale : Option (List String))
    (h : ∀ u ∈ s.uploads, u.credit ≤ MAX_CREDIT) :
    ∀ v ∈ (phase_sweep s stale).1.uploads, v.credit ≤ MAX_CREDIT := by
  unfold phase_sweep
  cases stale with
  | none => exact h
  | some l =>
    unfold check_timeouts
    dsimp only
    intro v hv
    exact h v (List.mem_of_mem_filter hv)

theorem phase_handle_le (s : Server) (om : Option Msg)
    (h : ∀ u ∈ s.uploads, u.credit ≤ MAX_CREDIT) :
    ∀ v ∈ (phase_handle s om).1.uploads, v.credit ≤ MAX_CREDIT := by
  match om with
  | none => exact h
  | some (Msg.post_file conn origin addOk) =>
    simp only [phase_handle, add_upload]
    split_ifs with hdup hok
    · exact h
    · intro v hv
      dsimp only at hv
      rw [List.mem_append] at hv
      rcases hv with hv | hv
      · exact h v hv
      · simp only [List.mem_singleton] at hv
        rw [hv]
        exact min_le_left _ _
    · exact h
  | some (Msg.post_chunk conn origin is_last seek len ok et) =>
    exact dispatch_connection_le s _ h
  | some (Msg.error_msg conn origin) => exact dispatch_connection_le s _ h
  | some (Msg.query_status conn origin) => exact dispatch_connection_le s _ h

/-- Upper credit bound under arbitrary (also non-compliant) traffic. -/
theorem reach_credit_le (s : Server) (h : Reach s) :
    ∀ u ∈ s.uploads, u.credit ≤ MAX_CREDIT := by
  induction h with
  | init => intro u hu; cases hu
  | step s it _ ih =>
    show ∀ u ∈ (serve_step s it).1.uploads, u.credit ≤ MAX_CREDIT
    unfold serve_step
    exact phase_handle_le _ _ (phase_sweep_le _ _ (phase_distribute_le _ ih))

/-- The invariant maintained on compliant traces. -/
def InvC (s : Server) : Prop :=
  (∀ u ∈ s.uploads, 0 ≤ u.credit ∧ u.credit ≤ MAX_CREDIT) ∧ s.debt ≤ MAX_DEBT

theorem handle_msg_credit_nonneg2 (u : Session) (m : Msg) (h0 : 0 ≤ u.credit)
    (hchunk : ∀ c o il sk ln ok et, m = .post_chunk c o il sk ln ok et → 0 < u.credit) :
    0 ≤ (handle_msg u m).1.credit := by
  cases m with
  | post_file c o a => simp [handle_msg]; omega
  | post_chunk c o is_last seek len ok et =>
    exact handle_msg_credit_nonneg u _ (hchunk c o is_last seek len ok et rfl)
  | error_msg c o => simp [handle_msg]; omega
  | query_status c o => simp [handle_msg]; omega

theorem dispatch_connection_C (s : Server) (m : Msg) (h : InvC s)
    (hpos : ∀ u, find_session s.uploads m.conn = some u →
      ∀ c o il sk ln ok et, m = .post_chunk c o il sk ln ok et → 0 < u.credit) :
    InvC (dispatch_connection s m).1 := by
  unfold dispatch_connection
  cases hf : find_session s.uploads m.conn with
  | none => exact h
  | some u =>
    dsimp only
    by_cases ho : u.origin ≠ m.origin
    · rw [if_pos ho]; exact h
    · rw [if_neg ho]
      dsimp only
      have humem := find_session_mem _ _ _ hf
      have hu := h.1 u humem
      constructor
      · intro v hv
        rcases dispatch_replace_mem _ _ _ v hv with hm | hm
        · exact h.1 v hm
        · by_cases hfin : (handle_msg u m).2.1 = true
          · rw [if_pos hfin] at hm; cases hm
          · rw [if_neg hfin] at hm
            cases hm
            exact ⟨handle_msg_credit_nonneg2 u m hu.1 (hpos u hf),
              handle_msg_credit_le u m hu.2⟩
      · have hret := handle_msg_returned_nonneg u m hu.1
        have hd := h.2
        dsimp only
        omega

theorem phase_distribute_C (s : Server) (h : InvC s) : InvC (phase_distribute s).1 := by
  unfold phase_distribute
  split_ifs with hd
  · unfold distribute_credit
    dsimp only
    constructor
    · intro v hv
      exact ⟨distribute_go_nonneg _ _ h.1 v hv,
        distribute_go_le _ _ (fun u hu => (h.1 u hu).2) v hv⟩
    · exact distribute_go_debt_le _ _ h.2
  · exact h

theorem phase_sweep_C (s : Server) (stale : Option (List String)) (h : InvC s) :
    InvC (phase_sweep s stale).1 := by
  unfold phase_sweep
  cases stale with
  | none => exact h
  | some l =>
    unfold check_timeouts
    constructor
    · intro v hv
      exact h.1 v (List.mem_of_mem_filter hv)
    · have := creditSum_filter_nonneg s.uploads
        (fun u => decide (u.conn ∈ l)) (fun u hu => (h.1 u hu).1)
      simp only [creditSum] at this
      have hd := h.2
      dsimp only
      omega

theorem phase_handle_C (s : Server) (om : Option Msg) (h : InvC s)
    (hc : ∀ conn origin il sk ln ok et,
      om = some (Msg.post_chunk conn origin il sk ln ok et) →
      ∀ u, find_session s.uploads conn = some u → 0 < u.credit) :
    InvC (phase_handle s om).1 := by
  match om with
  | none => exact h
  | some (Msg.post_file conn origin addOk) =>
    simp only [phase_handle, add_upload]
    split_ifs with hdup hok
    · exact h
    · constructor
      · intro v hv
        dsimp only at hv
        rw [List.mem_append] at hv
        rcases hv with hv | hv
        · exact h.1 v hv
        · simp only [List.mem_singleton] at hv
          rw [hv]
          refine ⟨?_, min_le_left _ _⟩
          dsimp only
          unfold MAX_CREDIT MAX_DEBT
          omega
      · have hd := h.2
        dsimp only
        unfold MAX_CREDIT MAX_DEBT at *
        omega
    · exact h
  | some (Msg.post_chunk conn origin is_last seek len ok et) =>
    refine dispatch_connection_C s _ h ?_
    intro u hf c o il sk ln ok2 et2 heq
    cases heq
    exact hc _ _ _ _ _ _ _ rfl u hf
  | some (Msg.error_msg conn origin) =>
    exact dispatch_connection_C s _ h (by intro u hf c o il sk ln ok2 et2 heq; cases heq)
  | some (Msg.query_status conn origin) =>
    exact dispatch_connection_C s _ h (by intro u hf c o il sk ln ok2 et2 heq; cases heq)

theorem reachC_invC (s : Server) (h : ReachC s) : InvC s := by
  induction h with
  | init => exact ⟨fun u hu => absurd hu (List.not_mem_nil u), by norm_num [init_server, MAX_DEBT]⟩
  | step s it hr hcomp ih =>
    show InvC (serve_step s it).1
    unfold serve_step
    refine phase_handle_C _ _ (phase_sweep_C _ _ (phase_distribute_C _ ih)) ?_
    intro conn origin il sk ln ok et hmsg u hf
    unfold CompliantAt at hcomp
    rw [hmsg] at hcomp
    exact hcomp u hf

/-- C4 (amended): in every reachable state every session's credit is
at most `MAX_CREDIT`; the lower bound `0 ≤ credit` and the debt bound
`debt ≤ MAX_DEBT + MAX_CREDIT` hold additionally on every trace where
each post-chunk is sent by a session holding positive credit (the code
does not enforce this itself — see the counterexample). -/
theorem upload_credit_bounds :
    (∀ s, Reach s → ∀ u ∈ s.uploads, u.credit ≤ MAX_CREDIT) ∧
    (∀ s, ReachC s →
      (∀ u ∈ s.uploads, 0 ≤ u.credit ∧ u.credit ≤ MAX_CREDIT) ∧
      s.debt ≤ MAX_DEBT + MAX_CREDIT) := by
  constructor
  · exact reach_credit_le
  · intro s h
    have := reachC_invC s h
    refine ⟨this.1, ?_⟩
    have := this.2
    unfold MAX_DEBT MAX_CREDIT at *
    omega

/-- Witness for C4 (amended) after one approved upload. -/
theorem upload_credit_bounds_witness :
    (∀ u ∈ (serve_step init_server ⟨none, some (.post_file "w1" "alice" true)⟩).1.uploads,
      0 ≤ u.credit ∧ u.credit ≤ MAX_CREDIT) ∧
    (serve_step init_server ⟨none, some (.post_file "w1" "alice" true)⟩).1.debt ≤
      MAX_DEBT + MAX_CREDIT :=
  upload_credit_bounds.2 _
    (ReachC.step init_server _ ReachC.init (by constructor))

/-! ### C4 counterexample: non-compliant chunks drive a session's
credit negative, and reclaiming such a session pushes debt past
`MAX_DEBT + MAX_CREDIT`. -/

def itPostFile (c : String) : Iter := ⟨none, some (.post_file c "alice" true)⟩

/-- A valid empty chunk at seek 0 — accepted whether or not the sender
holds credit. -/
def itChunk (c : String) : Iter := ⟨none, some (.post_chunk c "alice" false 0 0 true "")⟩

def itErrorMsg (c : String) : Iter := ⟨none, some (.error_msg c "alice")⟩

/-- Six uploads are created (initial credits 200, 200, 100, 101, 101
and 0, with interleaved compliant spending by c1 and c2), then the
zero-credit session c6 sends 201 accepted chunks without holding any
credit, driving its credit to −201.  The trace is written in segments
so each can be evaluated separately. -/
def cxA1 : List Iter := [itPostFile "c1", itPostFile "c2", itPostFile "c3"]

def cxA2 : List Iter := List.replicate 51 (itChunk "c1")

def cxA3 : List Iter := List.replicate 50 (itChunk "c1")

def cxA4 : List Iter := [itPostFile "c4"]

def cxA5 : List Iter := List.replicate 51 (itChunk "c2")

def cxA6 : List Iter := List.replicate 50 (itChunk "c2")

def cxA7 : List Iter := [itPostFile "c5", itPostFile "c6"]

def cxA8 : List Iter := List.replicate 51 (itChunk "c6")

def cxA9 : List Iter := List.replicate 50 (itChunk "c6")

def cxA10 : List Iter := List.replicate 50 (itChunk "c6")

def cxA11 : List Iter := List.replicate 50 (itChunk "c6")

def cxTraceA : List Iter :=
  cxA1 ++ cxA2 ++ cxA3 ++ cxA4 ++ cxA5 ++ cxA6 ++ cxA7 ++ cxA8 ++ cxA9 ++ cxA10 ++ cxA11

/-- …then c6 aborts; the credit-distribution pass first refills c1 and
c2 (saturating debt at 500 before reaching c6), and c6's returned
credit of −201 pushes debt to 701. -/
def cxTraceB : List Iter := cxTraceA ++ [itErrorMsg "c6"]

theorem reach_run_aux (its : List Iter) (s : Server) (h : Reach s) : Reach (run s its) := by
  induction its generalizing s with
  | nil => exact h
  | cons it rest ih => exact ih _ (Reach.step s it h)

theorem run_append (s : Server) (a b : List Iter) : run s (a ++ b) = run (run s a) b := by
  simp [run, List.foldl_append]

def cxU1 : Server :=
  ⟨[⟨"c1", "alice", 200, 0⟩, ⟨"c2", "alice", 200, 0⟩, ⟨"c3", "alice", 100, 0⟩], 500⟩

def cxU2 : Server :=
  ⟨[⟨"c1", "alice", 149, 0⟩, ⟨"c2", "alice", 200, 0⟩, ⟨"c3", "alice", 100, 0⟩], 449⟩

def cxU3 : Server :=
  ⟨[⟨"c1", "alice", 99, 0⟩, ⟨"c2", "alice", 200, 0⟩, ⟨"c3", "alice", 100, 0⟩], 399⟩

def cxU4 : Server :=
  ⟨[⟨"c1", "alice", 99, 0⟩, ⟨"c2", "alice", 200, 0⟩, ⟨"c3", "alice", 100, 0⟩,
    ⟨"c4", "alice", 101, 0⟩], 500⟩

def cxU5 : Server :=
  ⟨[⟨"c1", "alice", 99, 0⟩, ⟨"c2", "alice", 149, 0⟩, ⟨"c3", "alice", 100, 0⟩,
    ⟨"c4", "alice", 101, 0⟩], 449⟩

def cxU6 : Server :=
  ⟨[⟨"c1", "alice", 99, 0⟩, ⟨"c2", "alice", 99, 0⟩, ⟨"c3", "alice", 100, 0⟩,
    ⟨"c4", "alice", 101, 0⟩], 399⟩

def cxU7 : Server :=
  ⟨[⟨"c1", "alice", 99, 0⟩, ⟨"c2", "alice", 99, 0⟩, ⟨"c3", "alice", 100, 0⟩,
    ⟨"c4", "alice", 101, 0⟩, ⟨"c5", "alice", 101, 0⟩, ⟨"c6", "alice", 0, 0⟩], 500⟩

def cxU8 : Server :=
  ⟨[⟨"c1", "alice", 99, 0⟩, ⟨"c2", "alice", 99, 0⟩, ⟨"c3", "alice", 100, 0⟩,
    ⟨"c4", "alice", 101, 0⟩, ⟨"c5", "alice", 101, 0⟩, ⟨"c6", "alice", -51, 0⟩], 449⟩

def cxU9 : Server :=
  ⟨[⟨"c1", "alice", 99, 0⟩, ⟨"c2", "alice", 99, 0⟩, ⟨"c3", "alice", 100, 0⟩,
    ⟨"c4", "alice", 101, 0⟩, ⟨"c5", "alice", 101, 0⟩, ⟨"c6", "alice", -101, 0⟩], 399⟩

def cxU10 : Server :=
  ⟨[⟨"c1", "alice", 99, 0⟩, ⟨"c2", "alice", 99, 0⟩, ⟨"c3", "alice", 100, 0⟩,
    ⟨"c4", "alice", 101, 0⟩, ⟨"c5", "alice", 101, 0⟩, ⟨"c6", "alice", -151, 0⟩], 349⟩

def cxU11 : Server :=
  ⟨[⟨"c1", "alice", 99, 0⟩, ⟨"c2", "alice", 99, 0⟩, ⟨"c3", "alice", 100, 0⟩,
    ⟨"c4", "alice", 101, 0⟩, ⟨"c5", "alice", 101, 0⟩, ⟨"c6", "alice", -201, 0⟩], 299⟩

def cxUB : Server :=
  ⟨[⟨"c1", "alice", 200, 0⟩, ⟨"c2", "alice", 199, 0⟩, ⟨"c3", "alice", 100, 0⟩,
    ⟨"c4", "alice", 101, 0⟩, ⟨"c5", "alice", 101, 0⟩], 701⟩

set_option maxRecDepth 8000 in
theorem cx_runA : run init_server cxTraceA = cxU11 := by
  have e1 : run init_server cxA1 = cxU1 := by decide
  have e2 : run cxU1 cxA2 = cxU2 := by decide
  have e3 : run cxU2 cxA3 = cxU3 := by decide
  have e4 : run cxU3 cxA4 = cxU4 := by decide
  have e5 : run cxU4 cxA5 = cxU5 := by decide
  have e6 : run cxU5 cxA6 = cxU6 := by decide
  have e7 : run cxU6 cxA7 = cxU7 := by decide
  have e8 : run cxU7 cxA8 = cxU8 := by decide
  have e9 : run cxU8 cxA9 = cxU9 := by decide
  have e10 : run cxU9 cxA10 = cxU10 := by decide
  have e11 : run cxU10 cxA11 = cxU11 := by decide
  unfold cxTraceA
  rw [run_append, run_append, run_append, run_append, run_append, run_append,
    run_append, run_append, run_append, run_append,
    e1, e2, e3, e4, e5, e6, e7, e8, e9, e10, e11]

set_option maxRecDepth 8000 in
theorem cx_runB : run init_server cxTraceB = cxUB := by
  unfold cxTraceB
  rw [run_append, cx_runA]
  decide

/-- C4 (counterexample to the claim as stated): both bounds fail on
reachable states.  After `cxTraceA` the session c6 holds credit −201
(violating `0 ≤ credit`); after `cxTraceB` the debt is 701 >
`MAX_DEBT + MAX_CREDIT = 700`. -/
theorem credit_debt_bounds_fail :
    Reach (run init_server cxTraceA) ∧
    (∃ u ∈ (run init_server cxTraceA).uploads, u.credit < 0) ∧
    Reach (run init_server cxTraceB) ∧
    MAX_DEBT + MAX_CREDIT < (run init_server cxTraceB).debt := by
  refine ⟨reach_run_aux _ _ Reach.init, ?_, reach_run_aux _ _ Reach.init, ?_⟩
  · rw [cx_runA]
    decide
  · rw [cx_runB]
    decide

/-! ## C2: post-file handling as written. -/

/-- C2: as written, the server's post-file handling never creates a
session and never replies `upload-approved`: for every post-file
message — whatever its filename, metadata and origin — the state is
unchanged and the only reply is a 500 `error` (the
`Failed to create upload` reply produced when the mis-called
`Storage.add_file` raises `TypeError`, or the duplicate-connection
variant). -/
theorem post_file_always_rejected (s : Server) (conn origin : String) :
    (add_upload_as_written s conn origin).1 = s ∧
    ∃ m, (add_upload_as_written s conn origin).2 = [Reply.error_frames conn 500 m] := by
  unfold add_upload_as_written
  split_ifs with hdup
  · exact ⟨rfl, _, rfl⟩
  · exact ⟨rfl, _, rfl⟩

/-! ## C3: unknown connection. -/

/-- C3: a non-post-file message whose connection id is not in the
session map changes no server state and draws an error reply with the
text `"Unknown connection."` — but the numeric code frame on the wire
is 500, not the claimed 400: `Server.send_error` ignores its `code`
argument and hardcodes `(500).to_bytes(4, 'big')`. -/
theorem unknown_connection_wire_code :
    (∀ s m, find_session s.uploads (Msg.conn m) = none →
      dispatch_connection s m =
        (s, [Reply.error_frames (Msg.conn m) 500 "Unknown connection."])) ∧
    dispatch_connection init_server (.post_chunk "x" "alice" false 0 5 true "") =
      (init_server, [Reply.error_frames "x" 500 "Unknown connection."]) ∧
    (500 : Int) ≠ 400 := by
  refine ⟨?_, by decide, by decide⟩
  intro s m hf
  unfold dispatch_connection
  rw [hf]
  rfl

/-- Witness for C3 at a concrete unknown connection. -/
theorem unknown_connection_wire_code_witness :
    dispatch_connection init_server (.post_chunk "y" "bob" false 0 1 true "") =
      (init_server, [Reply.error_frames "y" 500 "Unknown connection."]) :=
  unknown_connection_wire_code.1 init_server (.post_chunk "y" "bob" false 0 1 true "")
    (by decide)

/-! ## C6: seek checks, monotonicity, status reports. -/

/-- C6: (i) `nbytes_written` never decreases across message handling;
(ii) a post-chunk whose seek differs from `nbytes_written` leaves the
session untouched and returns `(False, 0)` with no reply; (iii) a
query-status leaves the session untouched, returns `(False, 0)`, and
replies `status-report` carrying exactly the current `nbytes_written`
and credit. -/
theorem session_frame_properties :
    (∀ u m, u.nbytes_written ≤ (handle_msg u m).1.nbytes_written) ∧
    (∀ u c o il sk ln ok et, sk ≠ u.nbytes_written →
      handle_msg u (.post_chunk c o il sk ln ok et) = (u, false, 0, [])) ∧
    (∀ u c o, handle_msg u (.query_status c o) =
      (u, false, 0, [Reply.status_report u.conn u.nbytes_written u.credit])) := by
  refine ⟨?_, ?_, ?_⟩
  · intro u m
    cases m with
    | post_file c o a => exact le_refl _
    | post_chunk c o il sk ln ok et =>
      unfold handle_msg
      by_cases hs : sk ≠ u.nbytes_written
      · simp [hs]
      · cases il with
        | true => simp [hs]
        | false => cases ok <;> simp [hs]
    | error_msg c o => exact le_refl _
    | query_status c o => exact le_refl _
  · intro u c o il sk ln ok et hs
    unfold handle_msg
    dsimp only
    rw [if_pos hs]
  · intro u c o
    rfl

/-- Witness for C6 part (ii): a 5-byte session ignores a chunk at
seek 4. -/
theorem session_frame_properties_witness :
    handle_msg ⟨"w", "alice", 10, 5⟩ (.post_chunk "w" "alice" false 4 5 true "") =
      (⟨"w", "alice", 10, 5⟩, false, 0, []) :=
  session_frame_properties.2.1 ⟨"w", "alice", 10, 5⟩ "w" "alice" false 4 5 true ""
    (by decide)

end Dync